import Mathlib

/-!
# LED controller: UDP line protocol, listener callback and LED table

A shallow embedding of

* `LEDController/LEDController/LEDController.cpp` (the Windows tray application:
  `to_led_color`, `to_on_off`, the `led` table, the message callback that
  `InitInstance` hands to `UdpListener`, `UdpListener::Start`, `UdpListener::Stop`), and
* `linux_driver/udp_led.c` (the kernel module: `udp_led_set_brightness` and the three
  LED class devices).

A `std::string` is a `List Char`; `int` brightness values are `Int` (only the constants
0, 100 and 255 are ever stored); `std::string::npos` is `none`.
-/

namespace LEDController

/-! ## Strings -/

/-- The call `s.find(c)` of `std::string`: index of the first occurrence of `c`,
`none` standing for `std::string::npos`. -/
def find : List Char → Char → Option Nat
  | [], _ => none
  | x :: xs, c => if x = c then some 0 else (find xs c).map (· + 1)

/-- The call `s.substr(pos, count)` of `std::string`. -/
def substr (s : List Char) (pos count : Nat) : List Char :=
  (s.drop pos).take count

/-- The call `s.substr(pos)` of `std::string`: everything from index `pos` on. -/
def substrFrom (s : List Char) (pos : Nat) : List Char :=
  s.drop pos

/-! ## Protocol tokens (LEDController.cpp, lines 25-55) -/

/-- The enumeration `enum class LedColor`. -/
inductive LedColor where
  | RED
  | GREEN
  | BLUE
  | UNKNOWN
  deriving DecidableEq, Repr

/-- The function `to_led_color`. -/
def to_led_color (s : List Char) : LedColor :=
  if s = ['R'] then LedColor.RED
  else if s = ['G'] then LedColor.GREEN
  else if s = ['B'] then LedColor.BLUE
  else LedColor.UNKNOWN

/-- The function `led_color_to_string`. -/
def led_color_to_string (led_color : LedColor) : List Char :=
  match led_color with
  | LedColor.RED => ['R']
  | LedColor.GREEN => ['G']
  | LedColor.BLUE => ['B']
  | LedColor.UNKNOWN => ['U', 'N', 'K', 'N', 'O', 'W', 'N']

/-- The enumeration `enum class OnOff`. -/
inductive OnOff where
  | ON
  | OFF
  | UNKNOWN
  deriving DecidableEq, Repr

/-- The function `to_on_off`. -/
def to_on_off (s : List Char) : OnOff :=
  if s = ['O', 'N'] then OnOff.ON
  else if s = ['O', 'F', 'F'] then OnOff.OFF
  else OnOff.UNKNOWN

/-! ## The LED table (LEDController.cpp, lines 57-81) -/

/-- The Windows SDK `RGB(r, g, b)` value: the three bytes packed as `0x00bbggrr`. -/
def RGB (r g b : Nat) : Nat :=
  (r % 256) + (g % 256) * 256 + (b % 256) * 65536

/-- The record `struct LEDData`. -/
structure LEDData where
  name : LedColor
  color : Nat
  brightness : Int
  deriving DecidableEq, Repr

/-- The global table `led[]` as initialised at program start. -/
def led : List LEDData :=
  [ { name := LedColor.RED, color := RGB 255 0 0, brightness := 255 },
    { name := LedColor.GREEN, color := RGB 0 255 0, brightness := 255 },
    { name := LedColor.BLUE, color := RGB 0 0 255, brightness := 255 } ]

/-- The constant `num_leds = sizeof(led) / sizeof(led[0])`. -/
def num_leds : Nat := led.length

/-! ## The message callback (LEDController.cpp, lines 386-425) -/

/-- Observable side effects of the callback, in program order. -/
inductive Effect where
  /-- A call `OutputDebugStringA(s)`. -/
  | debugOut (s : List Char)
  /-- A write `std::cout << s`. -/
  | cout (s : List Char)
  /-- A call `UpdateTrayIcon()`; it redraws the icon from the table it finds,
  which is recorded. -/
  | updateTrayIcon (table : List LEDData)
  deriving DecidableEq, Repr

/-- The global state the callback works on: the `led` table and the effects so far. -/
structure World where
  led : List LEDData
  trace : List Effect
  deriving DecidableEq, Repr

/-- One iteration of `for (int i = 0; i < num_leds; i++)` in the callback:
the `if (led[i].name == to_led_color(nameOfLed))` with its `switch`. -/
def ledLoopBody (nameOfLed state : List Char) (t : List LEDData) (i : Nat) : List LEDData :=
  match t.get? i with
  | none => t
  | some e =>
    if e.name = to_led_color nameOfLed then
      match to_on_off state with
      | OnOff.ON => t.set i { e with brightness := 255 }
      | OnOff.OFF => t.set i { e with brightness := 0 }
      | OnOff.UNKNOWN => t.set i { e with brightness := 100 }
    else t

/-- The whole loop `for (int i = 0; i < num_leds; i++)` of the callback. -/
def ledLoop (nameOfLed state : List Char) (t : List LEDData) : List LEDData :=
  (List.range num_leds).foldl (ledLoopBody nameOfLed state) t

/-- The lambda that `InitInstance` passes to `UdpListener` as message callback. -/
def messageCallback (message : List Char) (w : World) : World :=
  let w1 : World :=
    { w with trace := w.trace ++
        [Effect.debugOut "\nReceived data:\n".toList, Effect.debugOut message,
         Effect.debugOut "\n".toList] }
  let w2 : World :=
    match find message ':' with
    | some pos =>
      let nameOfLed := substr message 0 pos
      let state := substrFrom message (pos + 1)
      { w1 with led := ledLoop nameOfLed state w1.led }
    | none =>
      { w1 with trace := w1.trace ++ [Effect.cout "No colon found in message!\n".toList] }
  { w2 with trace := w2.trace ++ [Effect.updateTrayIcon w2.led] }

/-- The listener thread hands the received datagrams to the callback one after the
other: the world after the payloads `ms` have been processed in order. -/
def processAll (ms : List (List Char)) (w : World) : World :=
  ms.foldl (fun acc m => messageCallback m acc) w

/-- The world at program start: the initial table, nothing traced yet. -/
def initialWorld : World :=
  { led := led, trace := [] }

/-- Number of `UpdateTrayIcon()` calls in a trace. -/
def trayUpdates (tr : List Effect) : Nat :=
  (tr.filter (fun e => match e with
    | Effect.updateTrayIcon _ => true
    | _ => false)).length

/-- The brightness the callback stores for a decoded state. -/
def storedBrightness (s : OnOff) : Int :=
  match s with
  | OnOff.ON => 255
  | OnOff.OFF => 0
  | OnOff.UNKNOWN => 100

/-- What one pass of the loop does to a single entry. -/
def updEntry (c : LedColor) (s : OnOff) (e : LEDData) : LEDData :=
  if e.name = c then { e with brightness := storedBrightness s } else e

/-- The table shape of the program: the entries RED, GREEN, BLUE in that order. -/
def IsLedTable (t : List LEDData) : Prop :=
  t.map LEDData.name = [LedColor.RED, LedColor.GREEN, LedColor.BLUE]

instance (t : List LEDData) : Decidable (IsLedTable t) := by
  unfold IsLedTable; infer_instance

/-! ## The kernel module (udp_led.c, lines 70-99) -/

/-- The fields of `struct led_classdev` that the module sets and reads. -/
structure led_classdev where
  name : List Char
  max_brightness : Nat
  deriving DecidableEq, Repr

/-- The device `led_r`. -/
def led_r : led_classdev := { name := ['R'], max_brightness := 1 }

/-- The device `led_g`. -/
def led_g : led_classdev := { name := ['G'], max_brightness := 1 }

/-- The device `led_b`. -/
def led_b : led_classdev := { name := ['B'], max_brightness := 1 }

/-- The C string that `snprintf(buf, size, ...)` leaves in `buf` when the complete
formatted output would be `formatted`: at most `size - 1` characters are kept. -/
def snprintf (size : Nat) (formatted : List Char) : List Char :=
  formatted.take (size - 1)

/-- The function `udp_led_set_brightness`: the content of `msg[16]` that it hands to
`send_udp_message`, which sends `strlen(msg)` bytes of it as one datagram. -/
def udp_led_set_brightness (led_cdev : led_classdev) (brightness : Int) : List Char :=
  snprintf 16
    (led_cdev.name ++ [':'] ++ (if brightness ≠ 0 then ['O', 'N'] else ['O', 'F', 'F']))

/-! ## The listener (LEDController.cpp, lines 108-220) -/

/-- The constant `default_udp_port`. -/
def default_udp_port : Int := 8888

/-- State of a `std::thread` object; only `running` is joinable. -/
inductive ThreadHandle where
  | empty
  | running
  | detached
  | joined
  deriving DecidableEq, Repr

/-- The data members of `class UdpListener`; `m_socket = none` is `INVALID_SOCKET`.
The callback member is the function `messageCallback`. -/
structure UdpListener where
  m_udp_port : Int
  m_socket : Option Nat
  m_listenerThread : ThreadHandle
  m_listening : Bool
  deriving DecidableEq, Repr

/-- The constructor `UdpListener(udp_port, callback)` with the default member
initialisers. -/
def UdpListener.new (udp_port : Int) : UdpListener :=
  { m_udp_port := udp_port, m_socket := none, m_listenerThread := ThreadHandle.empty,
    m_listening := false }

/-- What the Winsock calls made by `Start` and by the listener thread answer:
the return value of `WSAStartup`, the handle returned by `socket` (`none` for
`INVALID_SOCKET`), and whether `bind` succeeds. -/
structure Winsock where
  wsaStartup : Int
  socket : Option Nat
  bindOk : Bool
  deriving DecidableEq, Repr

/-- Where the listener thread stands in the lambda that `Start` runs on it. -/
inductive ListenerThread where
  /-- Launched, nothing executed yet. -/
  | entry
  /-- Socket created and bound; about to test `while (m_listening)`. -/
  | loopHead (socketHandle : Nat)
  /-- Inside the blocking call `recvfrom`. -/
  | inRecvfrom (socketHandle : Nat)
  /-- The call `recvfrom` has returned a datagram; `callback(buffer)` comes next. -/
  | received (socketHandle : Nat) (datagram : List Char)
  /-- The lambda has returned. -/
  | exited
  deriving DecidableEq, Repr

/-- What a call of `recvfrom` returns: `SOCKET_ERROR`, or the `bytesReceived` bytes it
has stored in `buffer`. -/
inductive RecvResult where
  | socketError
  | data (bytes : List Char)
  deriving DecidableEq, Repr

/-- The `std::string` the callback receives: at most `sizeof(buffer) - 1 = 1023` bytes
are received, a NUL is appended, and `callback(buffer)` converts the C string. -/
def receivedString (datagram : List Char) : List Char :=
  (datagram.take 1023).takeWhile (fun ch => ch ≠ Char.ofNat 0)

/-- The method `UdpListener::Start`: its return value, the listener afterwards, and the
thread it has launched, if any. The socket is created and bound by that thread, not by
`Start`, and the thread is detached before `Start` returns. -/
def UdpListener.Start (l : UdpListener) (env : Winsock) :
    Bool × UdpListener × Option ListenerThread :=
  if env.wsaStartup ≠ 0 then (false, l, none)
  else
    (true, { l with m_listening := true, m_listenerThread := ThreadHandle.detached },
     some ListenerThread.entry)

/-- One step of the listener thread; `m_listening` is the flag as the thread reads it,
`rx` what a pending `recvfrom` returns (`none`: it keeps blocking). The thread works on
its local `socketHandle`. Debug logging of the thread is left out. -/
def listenerThreadStep (m_listening : Bool) (env : Winsock) (rx : Option RecvResult)
    (th : ListenerThread) (w : World) : ListenerThread × World :=
  match th with
  | ListenerThread.entry =>
    match env.socket with
    | none => (ListenerThread.exited, w)
    | some h => if env.bindOk then (ListenerThread.loopHead h, w)
                else (ListenerThread.exited, w)
  | ListenerThread.loopHead h =>
    if m_listening then (ListenerThread.inRecvfrom h, w) else (ListenerThread.exited, w)
  | ListenerThread.inRecvfrom h =>
    match rx with
    | none => (ListenerThread.inRecvfrom h, w)
    | some RecvResult.socketError => (ListenerThread.loopHead h, w)
    | some (RecvResult.data bytes) => (ListenerThread.received h bytes, w)
  | ListenerThread.received h bytes =>
    (ListenerThread.loopHead h, messageCallback (receivedString bytes) w)
  | ListenerThread.exited => (ListenerThread.exited, w)

/-- The calls `UdpListener::Stop` can make. -/
inductive StopCall where
  | closesocket (h : Nat)
  | join
  | WSACleanup
  deriving DecidableEq, Repr

/-- The method `UdpListener::Stop`: the listener afterwards and the calls made. -/
def UdpListener.Stop (l : UdpListener) : UdpListener × List StopCall :=
  let l1 : UdpListener := { l with m_listening := false }
  let r1 : UdpListener × List StopCall :=
    match l1.m_socket with
    | some h => ({ l1 with m_socket := none }, [StopCall.closesocket h])
    | none => (l1, [])
  let r2 : UdpListener × List StopCall :=
    if r1.1.m_listenerThread = ThreadHandle.running then
      ({ r1.1 with m_listenerThread := ThreadHandle.joined }, r1.2 ++ [StopCall.join])
    else r1
  (r2.1, r2.2 ++ [StopCall.WSACleanup])

/-- The listener thread run for as many steps as `inputs` has entries; each entry gives
the flag `m_listening` as the thread reads it at that step and what a pending
`recvfrom` returns. -/
def listenerThreadRun (env : Winsock) (inputs : List (Bool × Option RecvResult))
    (th : ListenerThread) (w : World) : ListenerThread × World :=
  inputs.foldl (fun st i => listenerThreadStep i.1 env i.2 st.1 st.2) (th, w)

/-- A Winsock on which everything succeeds; `socket` returns the handle 1. -/
def workingWinsock : Winsock :=
  { wsaStartup := 0, socket := some 1, bindOk := true }

/-- The six well-formed payloads `T:S` with `T` in R, G, B and `S` in ON, OFF. -/
def validPayloads : List (List Char) :=
  [ ['R', ':', 'O', 'N'], ['R', ':', 'O', 'F', 'F'],
    ['G', ':', 'O', 'N'], ['G', ':', 'O', 'F', 'F'],
    ['B', ':', 'O', 'N'], ['B', ':', 'O', 'F', 'F'] ]

/-- Whether a payload is `T:ON` or `T:OFF` for the wire token `T` of the LED `c`. -/
def targets (c : LedColor) (m : List Char) : Bool :=
  decide (m = led_color_to_string c ++ [':', 'O', 'N']) ||
  decide (m = led_color_to_string c ++ [':', 'O', 'F', 'F'])

/-- The brightness the specification expects for the LED `c` after the payloads `ms`:
the one dictated by the last payload that targets `c` (255 for ON, 0 for OFF), or the
initial 255 when no payload targets it. -/
def dictatedBrightness (c : LedColor) (ms : List (List Char)) : Int :=
  match ms.reverse.find? (targets c) with
  | some m => if m = led_color_to_string c ++ [':', 'O', 'N'] then 255 else 0
  | none => 255

/-- The invariant of the LED table: the entries RED, GREEN, BLUE in that order, with
the colors of the initialiser, and every brightness within 0..255. -/
def TableInv (t : List LEDData) : Prop :=
  t.map LEDData.name = [LedColor.RED, LedColor.GREEN, LedColor.BLUE] ∧
  t.map LEDData.color = [RGB 255 0 0, RGB 0 255 0, RGB 0 0 255] ∧
  ∀ e ∈ t, 0 ≤ e.brightness ∧ e.brightness ≤ 255

/-! ## Helper lemmas -/

theorem num_leds_eq : num_leds = 3 := rfl

theorem set_of_get? (t : List LEDData) :
    ∀ (i : Nat) (e : LEDData), t.get? i = some e → t.set i e = t := by
  induction t with
  | nil => intro i e h; rfl
  | cons a rest ih =>
    intro i e h
    cases i with
    | zero =>
      simp only [List.get?, Option.some.injEq] at h
      simp [List.set, h]
    | succ k =>
      simp only [List.get?] at h
      simp [List.set, ih k e h]

theorem ledLoopBody_eq (n s : List Char) (t : List LEDData) (i : Nat) :
    ledLoopBody n s t i =
      match t.get? i with
      | none => t
      | some e => t.set i (updEntry (to_led_color n) (to_on_off s) e) := by
  unfold ledLoopBody
  cases h : t.get? i with
  | none => rfl
  | some e =>
    simp only [updEntry]
    by_cases hn : e.name = to_led_color n
    · simp only [hn, if_true]
      cases to_on_off s <;> rfl
    · simp only [hn, if_false]
      exact (set_of_get? t i e h).symm

theorem ledLoop_eq_map (n s : List Char) (t : List LEDData) :
    ledLoop n s t =
      (t.take 3).map (updEntry (to_led_color n) (to_on_off s)) ++ t.drop 3 := by
  have hr : List.range 3 = [0, 1, 2] := by decide
  unfold ledLoop
  rw [num_leds_eq, hr]
  simp only [List.foldl, ledLoopBody_eq]
  rcases t with _ | ⟨a, _ | ⟨b, _ | ⟨c, rest⟩⟩⟩ <;> simp [List.set, List.get?]

theorem find_append (T S : List Char) (c : Char) (h : c ∉ T) :
    find (T ++ c :: S) c = some T.length := by
  induction T with
  | nil => simp [find]
  | cons a rest ih =>
    have ha : a ≠ c := fun e => h (by simp [e])
    have hr : c ∉ rest := fun e => h (by simp [e])
    simp [find, ha, ih hr]

theorem find_eq_none (m : List Char) (c : Char) (h : c ∉ m) : find m c = none := by
  induction m with
  | nil => rfl
  | cons a rest ih =>
    have ha : a ≠ c := fun e => h (by simp [e])
    have hr : c ∉ rest := fun e => h (by simp [e])
    simp [find, ha, ih hr]

theorem substr_append (T S : List Char) (c : Char) :
    substr (T ++ c :: S) 0 T.length = T := by
  simp [substr]

theorem substrFrom_append (T S : List Char) (c : Char) :
    substrFrom (T ++ c :: S) (T.length + 1) = S := by
  simp [substrFrom]

theorem callback_led_split (T S : List Char) (w : World) (h : ':' ∉ T) :
    (messageCallback (T ++ ':' :: S) w).led = ledLoop T S w.led := by
  simp only [messageCallback, find_append T S ':' h, substr_append, substrFrom_append]

theorem callback_led_no_colon (m : List Char) (w : World) (h : ':' ∉ m) :
    (messageCallback m w).led = w.led := by
  simp only [messageCallback, find_eq_none m ':' h]

theorem ledLoop_table (n s : List Char) (t : List LEDData) (ht : IsLedTable t) :
    ledLoop n s t = t.map (updEntry (to_led_color n) (to_on_off s)) := by
  rw [ledLoop_eq_map]
  unfold IsLedTable at ht
  rcases t with _ | ⟨a, _ | ⟨b, _ | ⟨c, _ | ⟨d, rest⟩⟩⟩⟩ <;> simp at ht ⊢

theorem map_updEntry_unknown (s : OnOff) (t : List LEDData) (ht : IsLedTable t) :
    t.map (updEntry LedColor.UNKNOWN s) = t := by
  unfold IsLedTable at ht
  rcases t with _ | ⟨a, _ | ⟨b, _ | ⟨c, _ | ⟨d, rest⟩⟩⟩⟩ <;> simp at ht
  obtain ⟨ha, hb, hc⟩ := ht
  simp [updEntry, ha, hb, hc]

theorem callback_led_eq (m : List Char) (w : World) :
    (messageCallback m w).led =
      match find m ':' with
      | some pos => ledLoop (substr m 0 pos) (substrFrom m (pos + 1)) w.led
      | none => w.led := by
  unfold messageCallback
  cases find m ':' <;> rfl

theorem processAll_append_singleton (ms : List (List Char)) (m : List Char) (w : World) :
    processAll (ms ++ [m]) w = messageCallback m (processAll ms w) := by
  simp [processAll, List.foldl_append]

theorem dictatedBrightness_append_singleton (c : LedColor) (ms : List (List Char))
    (m : List Char) :
    dictatedBrightness c (ms ++ [m]) =
      if targets c m then
        (if m = led_color_to_string c ++ [':', 'O', 'N'] then 255 else 0)
      else dictatedBrightness c ms := by
  unfold dictatedBrightness
  rw [List.reverse_append, List.reverse_singleton, List.singleton_append, List.find?_cons]
  cases targets c m <;> simp

theorem updEntry_name (c : LedColor) (s : OnOff) (e : LEDData) :
    (updEntry c s e).name = e.name := by
  unfold updEntry; split <;> rfl

theorem updEntry_color (c : LedColor) (s : OnOff) (e : LEDData) :
    (updEntry c s e).color = e.color := by
  unfold updEntry; split <;> rfl

theorem updEntry_range (c : LedColor) (s : OnOff) (e : LEDData)
    (h : 0 ≤ e.brightness ∧ e.brightness ≤ 255) :
    0 ≤ (updEntry c s e).brightness ∧ (updEntry c s e).brightness ≤ 255 := by
  unfold updEntry
  split
  · cases s <;> simp [storedBrightness]
  · exact h

theorem updEntry_idem (c : LedColor) (s : OnOff) (e : LEDData) :
    updEntry c s (updEntry c s e) = updEntry c s e := by
  unfold updEntry
  by_cases h : e.name = c <;> simp [h]

theorem ledLoop_idem (n s : List Char) (t : List LEDData) :
    ledLoop n s (ledLoop n s t) = ledLoop n s t := by
  simp only [ledLoop_eq_map]
  rcases t with _ | ⟨a, _ | ⟨b, _ | ⟨c, rest⟩⟩⟩ <;> simp [updEntry_idem]

theorem tableInv_callback (m : List Char) (w : World) (h : TableInv w.led) :
    TableInv (messageCallback m w).led := by
  rw [callback_led_eq]
  cases find m ':' with
  | none => exact h
  | some pos =>
    obtain ⟨hn, hc, hb⟩ := h
    simp only [ledLoop_table _ _ w.led hn]
    refine ⟨?_, ?_, ?_⟩
    · rw [List.map_map, ← hn]
      exact List.map_congr_left (fun e _ => updEntry_name _ _ e)
    · rw [List.map_map, ← hc]
      exact List.map_congr_left (fun e _ => updEntry_color _ _ e)
    · intro e he
      obtain ⟨e0, he0, rfl⟩ := List.mem_map.mp he
      exact updEntry_range _ _ e0 (hb e0 he0)

theorem tableInv_processAll (ms : List (List Char)) :
    ∀ w : World, TableInv w.led → TableInv (processAll ms w).led := by
  induction ms with
  | nil => intro w h; exact h
  | cons m rest ih =>
    intro w h
    exact ih (messageCallback m w) (tableInv_callback m w h)

theorem tableInv_initial : TableInv initialWorld.led := by
  refine ⟨rfl, rfl, ?_⟩
  intro e he
  simp only [initialWorld, led, List.mem_cons, List.mem_singleton, List.not_mem_nil,
    or_false] at he
  rcases he with rfl | rfl | rfl <;> simp

theorem listenerThreadRun_exited (env : Winsock) (inputs : List (Bool × Option RecvResult))
    (w : World) :
    listenerThreadRun env inputs ListenerThread.exited w = (ListenerThread.exited, w) := by
  unfold listenerThreadRun
  induction inputs with
  | nil => rfl
  | cons i rest ih => simpa [List.foldl, listenerThreadStep] using ih

/-! ## The claims -/

/-- C1: for a payload `T:S` with `T` one of `R`, `G`, `B` and `S` one of `ON`, `OFF`,
and any table holding the entries RED, GREEN, BLUE, the callback finds the colon,
decodes `T` with `to_led_color` to RED, GREEN or BLUE respectively and `S` with
`to_on_off` to ON or OFF respectively, and the table afterwards is the old one with the
brightness of the entry of that identifier set to 255 (ON) or 0 (OFF); all other fields
and entries are as before. -/
theorem valid_payload_sets_target (T S : List Char) (w : World)
    (hT : T ∈ [['R'], ['G'], ['B']]) (hS : S ∈ [['O', 'N'], ['O', 'F', 'F']])
    (hw : IsLedTable w.led) :
    ∃ pos, find (T ++ ':' :: S) ':' = some pos
      ∧ to_led_color (substr (T ++ ':' :: S) 0 pos) =
          (if T = ['R'] then LedColor.RED
           else if T = ['G'] then LedColor.GREEN else LedColor.BLUE)
      ∧ to_on_off (substrFrom (T ++ ':' :: S) (pos + 1)) =
          (if S = ['O', 'N'] then OnOff.ON else OnOff.OFF)
      ∧ (messageCallback (T ++ ':' :: S) w).led =
          w.led.map (fun e =>
            if e.name = (if T = ['R'] then LedColor.RED
                         else if T = ['G'] then LedColor.GREEN else LedColor.BLUE)
            then { e with brightness := if S = ['O', 'N'] then 255 else 0 }
            else e) := by
  have hc : ':' ∉ T := by
    simp only [List.mem_cons, List.mem_singleton, List.not_mem_nil, or_false] at hT
    rcases hT with rfl | rfl | rfl <;> decide
  have hTc : to_led_color T = (if T = ['R'] then LedColor.RED
      else if T = ['G'] then LedColor.GREEN else LedColor.BLUE) := by
    simp only [List.mem_cons, List.mem_singleton, List.not_mem_nil, or_false] at hT
    rcases hT with rfl | rfl | rfl <;> decide
  have hSc : to_on_off S = (if S = ['O', 'N'] then OnOff.ON else OnOff.OFF) := by
    simp only [List.mem_cons, List.mem_singleton, List.not_mem_nil, or_false] at hS
    rcases hS with rfl | rfl <;> decide
  have hSb : storedBrightness (to_on_off S) = (if S = ['O', 'N'] then 255 else 0) := by
    simp only [List.mem_cons, List.mem_singleton, List.not_mem_nil, or_false] at hS
    rcases hS with rfl | rfl <;> decide
  refine ⟨T.length, find_append T S ':' hc, ?_, ?_, ?_⟩
  · rw [substr_append]; exact hTc
  · rw [substrFrom_append]; exact hSc
  · rw [callback_led_split T S w hc, ledLoop_table T S w.led hw]
    apply List.map_congr_left
    intro e _
    simp only [updEntry, hSb, ← hTc]

/-- Witness for C1: the payload `G:OFF` on the initial table. -/
theorem valid_payload_sets_target_witness :
    IsLedTable initialWorld.led ∧
    (messageCallback ['G', ':', 'O', 'F', 'F'] initialWorld).led =
      [ { name := LedColor.RED, color := RGB 255 0 0, brightness := 255 },
        { name := LedColor.GREEN, color := RGB 0 255 0, brightness := 0 },
        { name := LedColor.BLUE, color := RGB 0 0 255, brightness := 255 } ] := by
  refine ⟨by decide, ?_⟩
  obtain ⟨_, _, _, _, h⟩ :=
    valid_payload_sets_target ['G'] ['O', 'F', 'F'] initialWorld
      (by decide) (by decide) (by decide)
  rw [show (['G', ':', 'O', 'F', 'F'] : List Char) = ['G'] ++ ':' :: ['O', 'F', 'F'] from rfl, h]
  decide

/-- C2: a payload without any colon, or one whose text `T` before the first colon is
none of `R`, `G`, `B` (so that `to_led_color` gives UNKNOWN), leaves a table holding the
entries RED, GREEN, BLUE exactly as it was: every name, color and brightness. -/
theorem unknown_or_malformed_keeps_table (m : List Char) (w : World)
    (hw : IsLedTable w.led)
    (hm : ':' ∉ m ∨
      ∃ T S, m = T ++ ':' :: S ∧ ':' ∉ T ∧ T ≠ ['R'] ∧ T ≠ ['G'] ∧ T ≠ ['B']) :
    (messageCallback m w).led = w.led := by
  rcases hm with h | ⟨T, S, rfl, hc, hR, hG, hB⟩
  · exact callback_led_no_colon m w h
  · have hu : to_led_color T = LedColor.UNKNOWN := by simp [to_led_color, hR, hG, hB]
    rw [callback_led_split T S w hc, ledLoop_table T S w.led hw, hu]
    exact map_updEntry_unknown _ _ hw

/-- Witness for C2: the payload `X:ON` leaves the initial table as it is. -/
theorem unknown_or_malformed_keeps_table_witness :
    IsLedTable initialWorld.led ∧
    (messageCallback ['X', ':', 'O', 'N'] initialWorld).led = initialWorld.led :=
  ⟨by decide,
   unknown_or_malformed_keeps_table ['X', ':', 'O', 'N'] initialWorld (by decide)
     (Or.inr ⟨['X'], ['O', 'N'], rfl, by decide, by decide, by decide, by decide⟩)⟩

/-- C3: for a payload `T:S` with `T` one of `R`, `G`, `B` and `S` (the whole text after
the first colon) neither `ON` nor `OFF`, the callback decodes the state as UNKNOWN and the
table afterwards is the old one with the brightness of the entry named by `T` set to 100;
the other entries are unchanged. -/
theorem unknown_state_sets_fallback (T S : List Char) (w : World)
    (hT : T ∈ [['R'], ['G'], ['B']]) (hOn : S ≠ ['O', 'N']) (hOff : S ≠ ['O', 'F', 'F'])
    (hw : IsLedTable w.led) :
    ∃ pos, find (T ++ ':' :: S) ':' = some pos
      ∧ to_on_off (substrFrom (T ++ ':' :: S) (pos + 1)) = OnOff.UNKNOWN
      ∧ (messageCallback (T ++ ':' :: S) w).led =
          w.led.map (fun e =>
            if e.name = (if T = ['R'] then LedColor.RED
                         else if T = ['G'] then LedColor.GREEN else LedColor.BLUE)
            then { e with brightness := 100 }
            else e) := by
  have hc : ':' ∉ T := by
    simp only [List.mem_cons, List.mem_singleton, List.not_mem_nil, or_false] at hT
    rcases hT with rfl | rfl | rfl <;> decide
  have hTc : to_led_color T = (if T = ['R'] then LedColor.RED
      else if T = ['G'] then LedColor.GREEN else LedColor.BLUE) := by
    simp only [List.mem_cons, List.mem_singleton, List.not_mem_nil, or_false] at hT
    rcases hT with rfl | rfl | rfl <;> decide
  have hSc : to_on_off S = OnOff.UNKNOWN := by simp [to_on_off, hOn, hOff]
  refine ⟨T.length, find_append T S ':' hc, ?_, ?_⟩
  · rw [substrFrom_append]; exact hSc
  · rw [callback_led_split T S w hc, ledLoop_table T S w.led hw]
    apply List.map_congr_left
    intro e _
    simp only [updEntry, hSc, storedBrightness, ← hTc]

/-- Witness for C3: the payload `R:ON:X` sets RED to 100 on the initial table. -/
theorem unknown_state_sets_fallback_witness :
    IsLedTable initialWorld.led ∧
    (messageCallback ['R', ':', 'O', 'N', ':', 'X'] initialWorld).led =
      [ { name := LedColor.RED, color := RGB 255 0 0, brightness := 100 },
        { name := LedColor.GREEN, color := RGB 0 255 0, brightness := 255 },
        { name := LedColor.BLUE, color := RGB 0 0 255, brightness := 255 } ] := by
  refine ⟨by decide, ?_⟩
  obtain ⟨_, _, _, h⟩ :=
    unknown_state_sets_fallback ['R'] ['O', 'N', ':', 'X'] initialWorld
      (by decide) (by decide) (by decide) (by decide)
  rw [show (['R', ':', 'O', 'N', ':', 'X'] : List Char) =
    ['R'] ++ ':' :: ['O', 'N', ':', 'X'] from rfl, h]
  decide

/-- C4, counterexample: the payload `RON` has no colon, and yet the callback calls
`UpdateTrayIcon()` once while handling it. -/
theorem malformed_payload_fires_hook :
    ':' ∉ ['R', 'O', 'N'] ∧
    trayUpdates (messageCallback ['R', 'O', 'N'] initialWorld).trace =
      trayUpdates initialWorld.trace + 1 := by
  decide

/-- C4, amended: for every payload, with or without a colon, the callback calls
`UpdateTrayIcon()` exactly once, as its last action, and the call sees the table as the
callback leaves it. -/
theorem every_payload_fires_hook_once (m : List Char) (w : World) :
    trayUpdates (messageCallback m w).trace = trayUpdates w.trace + 1 ∧
    (messageCallback m w).trace.getLast? =
      some (Effect.updateTrayIcon (messageCallback m w).led) := by
  unfold messageCallback
  cases find m ':' <;> simp [trayUpdates, List.filter_append]

/-- C5: after any finite sequence of well-formed payloads processed in order from the
initial table, each LED has the brightness dictated by the last payload that targets it
(255 for ON, 0 for OFF), or the initial 255 when none does; names and colors are the
initial ones. -/
theorem last_command_wins (ms : List (List Char)) (h : ∀ m ∈ ms, m ∈ validPayloads) :
    (processAll ms initialWorld).led =
      [ { name := LedColor.RED, color := RGB 255 0 0,
          brightness := dictatedBrightness LedColor.RED ms },
        { name := LedColor.GREEN, color := RGB 0 255 0,
          brightness := dictatedBrightness LedColor.GREEN ms },
        { name := LedColor.BLUE, color := RGB 0 0 255,
          brightness := dictatedBrightness LedColor.BLUE ms } ] := by
  induction ms using List.reverseRecOn with
  | nil => rfl
  | append_singleton ms m ih =>
    have hms : ∀ x ∈ ms, x ∈ validPayloads := fun x hx => h x (by simp [hx])
    have hm : m ∈ validPayloads := h m (by simp)
    have ih1 := ih hms
    rw [processAll_append_singleton, callback_led_eq, ih1]
    simp only [dictatedBrightness_append_singleton]
    simp only [validPayloads, List.mem_cons, List.mem_singleton, List.not_mem_nil,
      or_false] at hm
    rcases hm with rfl | rfl | rfl | rfl | rfl | rfl <;>
      simp [find, substr, substrFrom, ledLoop_eq_map, updEntry, to_led_color, to_on_off,
        storedBrightness, targets, led_color_to_string]

/-- Witness for C5: the sequence `R:ON`, `G:OFF`, `B:ON` ends in R 255, G 0, B 255. -/
theorem last_command_wins_witness :
    (processAll [['R', ':', 'O', 'N'], ['G', ':', 'O', 'F', 'F'], ['B', ':', 'O', 'N']]
        initialWorld).led =
      [ { name := LedColor.RED, color := RGB 255 0 0, brightness := 255 },
        { name := LedColor.GREEN, color := RGB 0 255 0, brightness := 0 },
        { name := LedColor.BLUE, color := RGB 0 0 255, brightness := 255 } ] := by
  rw [last_command_wins _ (by decide)]
  decide

/-- C6: brightness range invariant. After any finite sequence of arbitrary payload
strings processed from the initial table, the table still holds exactly the entries
RED, GREEN, BLUE in that order, their colors are the initial ones, and every brightness
lies within 0..255. -/
theorem brightness_range_invariant (ms : List (List Char)) :
    (processAll ms initialWorld).led.map LEDData.name =
        [LedColor.RED, LedColor.GREEN, LedColor.BLUE] ∧
    (processAll ms initialWorld).led.map LEDData.color =
        [RGB 255 0 0, RGB 0 255 0, RGB 0 0 255] ∧
    ∀ e ∈ (processAll ms initialWorld).led, 0 ≤ e.brightness ∧ e.brightness ≤ 255 :=
  tableInv_processAll ms initialWorld tableInv_initial

/-- C7: idempotence. For every payload and every state, running the callback twice in a
row on the same payload leaves the same LED table as running it once. -/
theorem callback_idempotent (m : List Char) (w : World) :
    (messageCallback m (messageCallback m w)).led = (messageCallback m w).led := by
  rw [callback_led_eq m (messageCallback m w), callback_led_eq m w]
  cases find m ':' with
  | none => rfl
  | some pos => exact ledLoop_idem _ _ _

/-- C8: sender and receiver agree byte for byte. For each of the registered devices
`led_r`, `led_g`, `led_b` and every brightness `b`, the message that
`udp_led_set_brightness` leaves in its 16-byte buffer is the whole text `name:ON`
(`b` non-zero) or `name:OFF` (`b` zero), nothing cut off; the listener thread hands it to
the callback as it is; and the callback sets the entry RED, GREEN or BLUE respectively to
255 or 0 and leaves the other entries unchanged. -/
theorem sender_receiver_compatible (d : led_classdev) (b : Int) (w : World)
    (hd : d ∈ [led_r, led_g, led_b]) (hw : IsLedTable w.led) :
    udp_led_set_brightness d b =
        d.name ++ ':' :: (if b ≠ 0 then ['O', 'N'] else ['O', 'F', 'F'])
      ∧ (udp_led_set_brightness d b).length + 1 ≤ 16
      ∧ receivedString (udp_led_set_brightness d b) = udp_led_set_brightness d b
      ∧ (messageCallback (udp_led_set_brightness d b) w).led =
          w.led.map (fun e =>
            if e.name = (if d = led_r then LedColor.RED
                         else if d = led_g then LedColor.GREEN else LedColor.BLUE)
            then { e with brightness := if b ≠ 0 then 255 else 0 }
            else e) := by
  have hmsg : udp_led_set_brightness d b =
      d.name ++ ':' :: (if b ≠ 0 then ['O', 'N'] else ['O', 'F', 'F']) := by
    simp only [List.mem_cons, List.mem_singleton, List.not_mem_nil, or_false] at hd
    rcases hd with rfl | rfl | rfl <;> by_cases hb : b = 0 <;>
      simp [udp_led_set_brightness, snprintf, led_r, led_g, led_b, hb]
  have hc : ':' ∉ d.name := by
    simp only [List.mem_cons, List.mem_singleton, List.not_mem_nil, or_false] at hd
    rcases hd with rfl | rfl | rfl <;> decide
  have hcol : to_led_color d.name = (if d = led_r then LedColor.RED
      else if d = led_g then LedColor.GREEN else LedColor.BLUE) := by
    simp only [List.mem_cons, List.mem_singleton, List.not_mem_nil, or_false] at hd
    rcases hd with rfl | rfl | rfl <;> decide
  have hst : storedBrightness (to_on_off (if b ≠ 0 then ['O', 'N'] else ['O', 'F', 'F'])) =
      (if b ≠ 0 then 255 else 0) := by
    by_cases hb : b = 0 <;> simp [hb, to_on_off, storedBrightness]
  refine ⟨hmsg, ?_, ?_, ?_⟩
  · rw [hmsg]
    simp only [List.mem_cons, List.mem_singleton, List.not_mem_nil, or_false] at hd
    rcases hd with rfl | rfl | rfl <;> by_cases hb : b = 0 <;>
      simp [led_r, led_g, led_b, hb]
  · rw [hmsg]
    simp only [List.mem_cons, List.mem_singleton, List.not_mem_nil, or_false] at hd
    rcases hd with rfl | rfl | rfl <;> by_cases hb : b = 0 <;>
      simp [led_r, led_g, led_b, hb, receivedString]
  · rw [hmsg, callback_led_split _ _ w hc, ledLoop_table _ _ w.led hw]
    apply List.map_congr_left
    intro e _
    simp only [updEntry, hst, ← hcol]

/-- Witness for C8: `led_b` set to brightness 0 sends `B:OFF`, which turns BLUE off. -/
theorem sender_receiver_compatible_witness :
    led_b ∈ [led_r, led_g, led_b] ∧ IsLedTable initialWorld.led ∧
    udp_led_set_brightness led_b 0 = ['B', ':', 'O', 'F', 'F'] ∧
    (messageCallback (udp_led_set_brightness led_b 0) initialWorld).led =
      [ { name := LedColor.RED, color := RGB 255 0 0, brightness := 255 },
        { name := LedColor.GREEN, color := RGB 0 255 0, brightness := 255 },
        { name := LedColor.BLUE, color := RGB 0 0 255, brightness := 0 } ] := by
  obtain ⟨h1, _, _, h4⟩ :=
    sender_receiver_compatible led_b 0 initialWorld (by decide) (by decide)
  refine ⟨by decide, by decide, ?_, ?_⟩
  · rw [h1]; decide
  · rw [h4]; decide

/-- C9, counterexample: `WSAStartup` succeeds and creating the socket fails, or the
socket is created and `bind` fails; in both cases `Start` returns success, and the
thread it has launched exits at once without ever receiving. -/
theorem start_succeeds_though_socket_or_bind_fails :
    ((UdpListener.new default_udp_port).Start
        { wsaStartup := 0, socket := none, bindOk := false }).1 = true ∧
    (listenerThreadStep true { wsaStartup := 0, socket := none, bindOk := false } none
        ListenerThread.entry initialWorld).1 = ListenerThread.exited ∧
    ((UdpListener.new default_udp_port).Start
        { wsaStartup := 0, socket := some 1, bindOk := false }).1 = true ∧
    (listenerThreadStep true { wsaStartup := 0, socket := some 1, bindOk := false } none
        ListenerThread.entry initialWorld).1 = ListenerThread.exited := by
  decide

/-- C9, amended: `Start` returns failure exactly when `WSAStartup` fails; its result
does not depend on whether the socket can be created or bound. When it returns success
it has set `m_listening` and launched and detached the listener thread, and it is that
thread which creates and binds the socket: with both successful its first step takes it
to the receive loop on that socket; when creating the socket fails, or binding it fails,
its first step ends it, and however long it is run it never receives a datagram nor
calls the callback (the world stays as it was), while `Start` has returned success all
the same. -/
theorem start_fails_iff_wsastartup_fails (l : UdpListener) (env : Winsock) :
    ((l.Start env).1 = false ↔ env.wsaStartup ≠ 0) ∧
    (∀ (s : Option Nat) (b : Bool),
      (l.Start { env with socket := s, bindOk := b }).1 = (l.Start env).1) ∧
    ((l.Start env).1 = true ↔
      (l.Start env).2 =
        ({ l with m_listening := true, m_listenerThread := ThreadHandle.detached },
         some ListenerThread.entry)) ∧
    (∀ h : Nat, env.socket = some h → env.bindOk = true →
      ∀ (f : Bool) (rx : Option RecvResult) (w : World),
        listenerThreadStep f env rx ListenerThread.entry w =
          (ListenerThread.loopHead h, w)) ∧
    (env.socket = none ∨ env.bindOk = false →
      ∀ (f : Bool) (rx : Option RecvResult) (w : World),
        listenerThreadStep f env rx ListenerThread.entry w = (ListenerThread.exited, w)) ∧
    (env.socket = none ∨ env.bindOk = false →
      ∀ (i : Bool × Option RecvResult) (inputs : List (Bool × Option RecvResult))
        (w : World),
        listenerThreadRun env (i :: inputs) ListenerThread.entry w =
          (ListenerThread.exited, w)) ∧
    (env.wsaStartup = 0 → (env.socket = none ∨ env.bindOk = false) →
      (l.Start env).1 = true) := by
  have hexit : env.socket = none ∨ env.bindOk = false →
      ∀ (f : Bool) (rx : Option RecvResult) (w : World),
        listenerThreadStep f env rx ListenerThread.entry w = (ListenerThread.exited, w) := by
    intro hfail f rx w
    unfold listenerThreadStep
    rcases hfail with hs | hb
    · simp [hs]
    · cases hsock : env.socket <;> simp [hb]
  refine ⟨?_, ?_, ?_, ?_, hexit, ?_, ?_⟩
  · unfold UdpListener.Start
    by_cases h : env.wsaStartup = 0 <;> simp [h]
  · intro s b
    unfold UdpListener.Start
    by_cases h : env.wsaStartup = 0 <;> simp [h]
  · unfold UdpListener.Start
    by_cases h : env.wsaStartup = 0 <;> simp [h]
  · intro h hs hb f rx w
    simp [listenerThreadStep, hs, hb]
  · intro hfail i inputs w
    have h1 := hexit hfail i.1 i.2 w
    have h2 := listenerThreadRun_exited env inputs w
    unfold listenerThreadRun at h2 ⊢
    rw [List.foldl_cons]
    simp only [h1]
    exact h2
  · intro h0 _
    simp [UdpListener.Start, h0]

/-- Witness for C9: `WSAStartup` succeeds, socket 1 is created, `bind` fails. `Start`
returns success, and the thread, run for three steps with a datagram `R:OFF` on offer,
has exited and has left the world untouched. -/
theorem start_fails_iff_wsastartup_fails_witness :
    ((UdpListener.new default_udp_port).Start
        { wsaStartup := 0, socket := some 1, bindOk := false }).1 = true ∧
    listenerThreadRun { wsaStartup := 0, socket := some 1, bindOk := false }
        [(true, none), (true, some (RecvResult.data ['R', ':', 'O', 'F', 'F'])), (true, none)]
        ListenerThread.entry initialWorld = (ListenerThread.exited, initialWorld) :=
  ⟨(start_fails_iff_wsastartup_fails (UdpListener.new default_udp_port)
      { wsaStartup := 0, socket := some 1, bindOk := false }).2.2.2.2.2.2 rfl (Or.inr rfl),
   (start_fails_iff_wsastartup_fails (UdpListener.new default_udp_port)
      { wsaStartup := 0, socket := some 1, bindOk := false }).2.2.2.2.2.1 (Or.inr rfl)
      (true, none) _ initialWorld⟩

/-- C10, the code at the failing input: a listener is constructed and `Start` succeeds;
the thread creates and binds socket 1, enters `recvfrom` and receives the datagram
`R:OFF`. `Stop` then runs: it clears `m_listening` and calls `WSACleanup` only, it
neither closes a socket (`m_socket` was never assigned) nor joins the thread (it was
detached). After `Stop` has returned, the thread goes on to call the callback with the
datagram it has in hand, and RED goes to 0. -/
theorem stop_neither_closes_nor_joins :
    ((UdpListener.new default_udp_port).Start workingWinsock).1 = true ∧
    (listenerThreadStep true workingWinsock none ListenerThread.entry initialWorld).1 =
      ListenerThread.loopHead 1 ∧
    (listenerThreadStep true workingWinsock none (ListenerThread.loopHead 1)
        initialWorld).1 = ListenerThread.inRecvfrom 1 ∧
    (listenerThreadStep true workingWinsock
        (some (RecvResult.data ['R', ':', 'O', 'F', 'F'])) (ListenerThread.inRecvfrom 1)
        initialWorld) = (ListenerThread.received 1 ['R', ':', 'O', 'F', 'F'], initialWorld) ∧
    (((UdpListener.new default_udp_port).Start workingWinsock).2.1.Stop).2 =
      [StopCall.WSACleanup] ∧
    (((UdpListener.new default_udp_port).Start workingWinsock).2.1.Stop).1.m_listening =
      false ∧
    (listenerThreadStep
        (((UdpListener.new default_udp_port).Start workingWinsock).2.1.Stop).1.m_listening
        workingWinsock none
        (ListenerThread.received 1 ['R', ':', 'O', 'F', 'F']) initialWorld).2.led =
      [ { name := LedColor.RED, color := RGB 255 0 0, brightness := 0 },
        { name := LedColor.GREEN, color := RGB 0 255 0, brightness := 255 },
        { name := LedColor.BLUE, color := RGB 0 0 255, brightness := 255 } ] := by
  decide

/-- C11: the token table is a bijection between RED, GREEN, BLUE and the one-character
tokens `R`, `G`, `B`. For every identifier `c` other than UNKNOWN,
`led_color_to_string c` has exactly one character and `to_led_color` maps it back to `c`;
for every string `s`, `to_led_color s` is not UNKNOWN exactly when `s` is `R`, `G` or `B`,
and then `led_color_to_string` maps the identifier back to `s`. -/
theorem token_table_bijection :
    (∀ c : LedColor, c ≠ LedColor.UNKNOWN →
      (led_color_to_string c).length = 1 ∧ to_led_color (led_color_to_string c) = c) ∧
    (∀ s : List Char,
      (to_led_color s ≠ LedColor.UNKNOWN ↔ s = ['R'] ∨ s = ['G'] ∨ s = ['B']) ∧
      (to_led_color s ≠ LedColor.UNKNOWN → led_color_to_string (to_led_color s) = s)) := by
  refine ⟨?_, ?_⟩
  · intro c hc
    cases c with
    | RED => exact ⟨rfl, by decide⟩
    | GREEN => exact ⟨rfl, by decide⟩
    | BLUE => exact ⟨rfl, by decide⟩
    | UNKNOWN => exact absurd rfl hc
  · intro s
    by_cases hR : s = ['R']
    · subst hR
      exact ⟨⟨fun _ => Or.inl rfl, fun _ => by decide⟩, fun _ => by decide⟩
    · by_cases hG : s = ['G']
      · subst hG
        exact ⟨⟨fun _ => Or.inr (Or.inl rfl), fun _ => by decide⟩, fun _ => by decide⟩
      · by_cases hB : s = ['B']
        · subst hB
          exact ⟨⟨fun _ => Or.inr (Or.inr rfl), fun _ => by decide⟩, fun _ => by decide⟩
        · have hu : to_led_color s = LedColor.UNKNOWN := by
            simp [to_led_color, hR, hG, hB]
          refine ⟨⟨fun h => absurd hu h, ?_⟩, fun h => absurd hu h⟩
          rintro (h | h | h)
          · exact absurd h hR
          · exact absurd h hG
          · exact absurd h hB

end LEDController
